import Mathlib

/-!
Verification of the secret-reveal coordinator of the 1inch cross-chain swap
wrapper (CLI scripts and HTTP backend).  The external SDK (hash-lock
construction, Merkle leaves, order submission, relayer endpoints) is modelled
symbolically: SDK calls become constructors of free term algebras, and the
network/relayer behaviour observed by the polling loops becomes an explicit
environment (one observation record per loop iteration).

Sources embedded here:
  - src/backend/src/utils/secret-manager.ts   (SecretManager)
  - src/backend/src/services/fusion-service.ts (FusionService.executeSwap,
    FusionService.monitorAndCompleteSwap)
  - src/backend/src/routes/fusion-routes.ts    (POST /quote handler)
  - src/backend/src/sol-to-evm.ts              (Solana→EVM CLI script)
  - src/unnamed/part_000                       (EVM→Solana CLI script)
-/

/-! ## Byte/hex model of node:crypto randomBytes(32).toString(hex) and add0x -/

/-- The sixteen lowercase hex digit characters, in value order: the ten
decimal digits followed by the six letters.  Models the alphabet used by
Buffer.toString with hex encoding. -/
def hexDigits : List Char :=
  ['0', '1', '2', '3', '4'] ++ ['5', '6', '7', '8', '9']
    ++ ['a', 'b', 'c'] ++ ['d', 'e', 'f']

/-- The lowercase hex digit for a nibble value. -/
def hexChar (n : Nat) : Char := hexDigits.getD n '0'

/-- The character list of the lowercase hex encoding of a byte list: two
digits (high nibble then low nibble) per byte, as produced by
Buffer.toString with hex encoding on the buffer returned by randomBytes. -/
def bytesHexChars : List Nat → List Char
  | [] => []
  | b :: bs => hexChar (b / 16) :: hexChar (b % 16) :: bytesHexChars bs

/-- The lowercase hex string of a byte list. -/
def bytesToHex (bs : List Nat) : String := String.mk (bytesHexChars bs)

/-- Modelled from the spec: add0x of the external package 1inch byte-utils
(not under src/), which prepends a 0x prefix to a string unless the string
already carries one. -/
def add0x (s : String) : String :=
  if s.data.take 2 = ['0', 'x'] then s else String.mk ('0' :: 'x' :: s.data)

/-- Randomness is modelled as a stream of byte-list draws: draw i is the
buffer returned by the (i+1)-th call to randomBytes(32) during one
generateSecrets run. -/
def Rng : Type := Nat → List Nat

/-- Embeds SecretManager.generateSecret (secret-manager.ts line 13),
getSecret (part_000 line 71, sol-to-evm.ts line 81) and the per-element
callback of the inline generation in FusionService.executeSwap
(fusion-service.ts line 184): add0x(randomBytes(32).toString(hex)),
where the fresh 32-byte buffer of this call is the given draw. -/
def generateSecret (draw : List Nat) : String := add0x (bytesToHex draw)

/-- Embeds SecretManager.generateSecrets (secret-manager.ts line 17),
generateSecrets (part_000 line 75, sol-to-evm.ts line 85) and the inline
Array.from construction in FusionService.executeSwap (fusion-service.ts
lines 183-185): count callbacks are run in order, the i-th one consuming
the i-th fresh randomBytes(32) draw of the rng stream. -/
def generateSecrets (count : Nat) (rng : Rng) : List String :=
  (List.range count).map (fun i => generateSecret (rng i))

/-! ## Symbolic model of the SDK HashLock API -/

/-- Symbolic result of HashLock.getMerkleLeaves: the SDK computation is
opaque to this repository, so the call is recorded as a free constructor
applied to the exact secrets list passed in. -/
inductive MerkleLeavesExpr : Type
  | getMerkleLeaves (secrets : List String)
deriving DecidableEq, Repr

/-- Symbolic result of the two HashLock constructors used by this
repository.  forSingleFill receives the JS value secrets[0], which is
undefined (none) on an empty list. -/
inductive HashLockExpr : Type
  | forSingleFill (secret : Option String)
  | forMultipleFills (leaves : MerkleLeavesExpr)
deriving DecidableEq, Repr

/-- Symbolic result of HashLock.hashSecret applied to one secret string. -/
inductive SecretHashExpr : Type
  | hashSecret (secret : String)
deriving DecidableEq, Repr

/-- JS array indexing secrets[i]: undefined (none) out of range. -/
def jsIndex (xs : List String) (i : Nat) : Option String := xs[i]?

/-- Embeds SecretManager.createHashLock (secret-manager.ts lines 21-27) and
the identical createHashLock of part_000 (lines 79-85) and sol-to-evm.ts
(lines 89-95): leaves are computed first, then the branch is on
secrets.length > 1, the single-fill branch receiving secrets[0]. -/
def createHashLock (secrets : List String) : HashLockExpr :=
  let leaves := MerkleLeavesExpr.getMerkleLeaves secrets
  if secrets.length > 1 then
    HashLockExpr.forMultipleFills leaves
  else
    HashLockExpr.forSingleFill (jsIndex secrets 0)

/-- Embeds the inline hash-lock construction of FusionService.executeSwap
(fusion-service.ts lines 188-190): the branch is on secrets.length === 1,
the multi-fill branch computing getMerkleLeaves(secrets). -/
def executeSwapHashLock (secrets : List String) : HashLockExpr :=
  if secrets.length = 1 then
    HashLockExpr.forSingleFill (jsIndex secrets 0)
  else
    HashLockExpr.forMultipleFills (MerkleLeavesExpr.getMerkleLeaves secrets)

/-! ## Secret string format -/

/-- c is one of the sixteen lowercase hex digit characters. -/
def isHexChar (c : Char) : Bool :=
  (48 ≤ c.toNat && c.toNat ≤ 57) || (97 ≤ c.toNat && c.toNat ≤ 102)

/-- s is a 66-character string: the two characters 0x followed by 64
lowercase hex digits (the hex encoding of 32 bytes). -/
def isSecretString (s : String) : Bool :=
  s.length = 66 && s.data.take 2 = ['0', 'x'] && (s.data.drop 2).all isHexChar

/-! ## Basic lemmas about the hex encoding -/

theorem hexChar_isHex (n : Nat) (h : n < 16) : isHexChar (hexChar n) = true := by
  unfold hexChar hexDigits
  interval_cases n <;> rfl

theorem hexChar_ne_x (n : Nat) : hexChar n ≠ 'x' := by
  unfold hexChar hexDigits
  rcases Nat.lt_or_ge n 16 with h | h
  · interval_cases n <;> decide
  · rw [List.getD_eq_default]
    · decide
    · simpa using h

theorem bytesHexChars_length (bs : List Nat) :
    (bytesHexChars bs).length = 2 * bs.length := by
  induction bs with
  | nil => rfl
  | cons b bs ih => simp [bytesHexChars, ih]; omega

theorem bytesHexChars_hex (bs : List Nat) (h : ∀ b ∈ bs, b < 256) :
    ∀ c ∈ bytesHexChars bs, isHexChar c = true := by
  induction bs with
  | nil => intro c hc; simp [bytesHexChars] at hc
  | cons b bs ih =>
    intro c hc
    have hb : b < 256 := h b (List.mem_cons_self b bs)
    simp only [bytesHexChars, List.mem_cons] at hc
    rcases hc with rfl | hc
    · exact hexChar_isHex _ (Nat.div_lt_of_lt_mul (by omega))
    rcases hc with rfl | hc
    · exact hexChar_isHex _ (Nat.mod_lt _ (by norm_num))
    · exact ih (fun x hx => h x (List.mem_cons_of_mem _ hx)) c hc

theorem add0x_bytesToHex (bs : List Nat) :
    add0x (bytesToHex bs) = String.mk ('0' :: 'x' :: bytesHexChars bs) := by
  unfold add0x bytesToHex
  cases bs with
  | nil => simp [bytesHexChars]
  | cons b bs =>
    have hne : (bytesHexChars (b :: bs)).take 2 ≠ ['0', 'x'] := by
      show [hexChar (b / 16), hexChar (b % 16)] ≠ ['0', 'x']
      intro hcontra
      simp only [List.cons.injEq, and_true] at hcontra
      exact hexChar_ne_x _ hcontra.2
    simp [hne]

theorem string_mk_length (l : List Char) : (String.mk l).length = l.length := rfl

theorem generateSecret_format (draw : List Nat) (hlen : draw.length = 32)
    (hbytes : ∀ b ∈ draw, b < 256) : isSecretString (generateSecret draw) = true := by
  unfold generateSecret isSecretString
  rw [add0x_bytesToHex]
  have hl : (bytesHexChars draw).length = 64 := by
    rw [bytesHexChars_length, hlen]
  have h1 : (String.mk ('0' :: 'x' :: bytesHexChars draw)).length = 66 := by
    rw [string_mk_length]; simp [hl]
  have h2 : (String.mk ('0' :: 'x' :: bytesHexChars draw)).data.take 2 = ['0', 'x'] := rfl
  simp only [Bool.and_eq_true, decide_eq_true_eq, List.all_eq_true]
  exact ⟨⟨h1, h2⟩, fun c hc => bytesHexChars_hex draw hbytes c hc⟩

/-! ## Claims C3, C4, C9 -/

/-- Claim C3: for every list of N generated secrets with N ≥ 1, the
hash-lock construction (SecretManager.createHashLock, the part_000 and
sol-to-evm createHashLock, and the inline construction in
FusionService.executeSwap) returns forMultipleFills over
getMerkleLeaves of the secrets when N > 1, and forSingleFill of the first
secret when N = 1. -/
theorem hashLock_selection (secrets : List String) (h : 1 ≤ secrets.length) :
    (secrets.length > 1 →
      createHashLock secrets
        = HashLockExpr.forMultipleFills (MerkleLeavesExpr.getMerkleLeaves secrets) ∧
      executeSwapHashLock secrets
        = HashLockExpr.forMultipleFills (MerkleLeavesExpr.getMerkleLeaves secrets)) ∧
    (secrets.length = 1 →
      (jsIndex secrets 0).isSome = true ∧
      createHashLock secrets = HashLockExpr.forSingleFill (jsIndex secrets 0) ∧
      executeSwapHashLock secrets = HashLockExpr.forSingleFill (jsIndex secrets 0)) := by
  constructor
  · intro hgt
    have hne : secrets.length ≠ 1 := by omega
    constructor
    · simp [createHashLock, hgt]
    · simp [executeSwapHashLock, hne]
  · intro heq
    have hnotgt : ¬ secrets.length > 1 := by omega
    refine ⟨?_, ?_, ?_⟩
    · cases secrets with
      | nil => simp at heq
      | cons a rest => simp [jsIndex]
    · simp [createHashLock, hnotgt]
    · simp [executeSwapHashLock, heq]

/-- Witness for C3: on a concrete two-element secrets list the construction
is the Merkle multi-fill hash-lock, and on a one-element list it is the
single-fill hash-lock of the first secret. -/
theorem hashLock_selection_witness :
    (1 ≤ (["0xaa", "0xbb"] : List String).length ∧
      createHashLock ["0xaa", "0xbb"]
        = HashLockExpr.forMultipleFills
            (MerkleLeavesExpr.getMerkleLeaves ["0xaa", "0xbb"])) ∧
    (1 ≤ (["0xaa"] : List String).length ∧
      createHashLock ["0xaa"] = HashLockExpr.forSingleFill (some "0xaa")) :=
  ⟨⟨by decide,
    ((hashLock_selection ["0xaa", "0xbb"] (by decide)).1 (by decide)).1⟩,
   ⟨by decide,
    (((hashLock_selection ["0xaa"] (by decide)).2 rfl).2).1⟩⟩

/-- Claim C9: for every non-empty secrets list, SecretManager.createHashLock
(branching on length > 1) and the inline construction in
FusionService.executeSwap (branching on length === 1) compute the same
hash-lock, and the non-emptiness precondition is necessary: on the empty
list the two constructions take different branches (forSingleFill of
undefined versus forMultipleFills of the leaves of the empty list). -/
theorem createHashLock_refines_inline :
    (∀ secrets : List String, secrets ≠ [] →
      createHashLock secrets = executeSwapHashLock secrets) ∧
    createHashLock [] ≠ executeSwapHashLock [] := by
  constructor
  · intro secrets hne
    cases secrets with
    | nil => exact absurd rfl hne
    | cons a rest =>
      cases rest with
      | nil => rfl
      | cons b rest2 =>
        have h1 : (a :: b :: rest2).length > 1 := by simp
        have h2 : (a :: b :: rest2).length ≠ 1 := by simp
        simp [createHashLock, executeSwapHashLock, h1, h2]
  · decide

/-- Witness for C9: the two constructions agree on a concrete non-empty
list. -/
theorem createHashLock_refines_inline_witness :
    createHashLock ["0x01"] = executeSwapHashLock ["0x01"] :=
  createHashLock_refines_inline.1 ["0x01"] (by decide)

/-- Claim C4: for every count N ≥ 0 and every stream of fresh 32-byte
draws, generateSecrets returns a list of exactly N secrets; the i-th secret
is the 0x-prefixed lowercase hex encoding of the i-th independent draw (one
draw per secret), a 66-character string. -/
theorem generateSecrets_spec (count : Nat) (rng : Rng)
    (h : ∀ i, i < count → (rng i).length = 32 ∧ ∀ b ∈ rng i, b < 256) :
    (generateSecrets count rng).length = count ∧
    (∀ i, i < count →
      (generateSecrets count rng)[i]? = some (add0x (bytesToHex (rng i)))) ∧
    (∀ s ∈ generateSecrets count rng, isSecretString s = true) := by
  refine ⟨?_, ?_, ?_⟩
  · simp [generateSecrets]
  · intro i hi
    simp [generateSecrets, List.getElem?_map, List.getElem?_range, hi, generateSecret]
  · intro s hs
    simp only [generateSecrets, List.mem_map, List.mem_range] at hs
    obtain ⟨i, hi, rfl⟩ := hs
    exact generateSecret_format (rng i) (h i hi).1 (h i hi).2

/-- Witness for C4: with two concrete 32-byte draws, generateSecrets 2
returns the two corresponding 66-character 0x-prefixed hex secrets. -/
theorem generateSecrets_spec_witness :
    (generateSecrets 2 (fun i => List.replicate 32 i)).length = 2 ∧
    (generateSecrets 2 (fun i => List.replicate 32 i))[0]?
      = some (add0x (bytesToHex (List.replicate 32 0))) ∧
    (∀ s ∈ generateSecrets 2 (fun i => List.replicate 32 i),
      isSecretString s = true) :=
  have h := generateSecrets_spec 2 (fun i => List.replicate 32 i)
    (by intro i hi; constructor
        · simp
        · intro b hb; have := List.eq_of_mem_replicate hb; omega)
  ⟨h.1, h.2.1 0 (by decide), h.2.2⟩

/-! ## HTTP backend: POST /quote request validation (fusion-routes.ts) -/

/-- JS truthiness of an optional string value pulled from a request body:
an absent field is undefined (falsy), the empty string is falsy, every
other string is truthy. -/
def jsTruthyStr : Option String → Bool
  | none => false
  | some s => s ≠ ""

/-- JS truthiness of an optional numeric value pulled from a request body:
an absent field is undefined (falsy), zero is falsy. -/
def jsTruthyNum : Option Int → Bool
  | none => false
  | some n => n ≠ 0

/-- The six fields destructured from req.body by the POST /quote handler
(fusion-routes.ts line 50).  A none field is one absent from the JSON
body. -/
structure QuoteBody : Type where
  srcChainId : Option Int
  dstChainId : Option Int
  srcTokenAddress : Option String
  dstTokenAddress : Option String
  amount : Option String
  walletAddress : Option String

/-- Outcome of fusionService.getQuote as seen by the route handler: either
the quote payload object (an opaque SDK value, kept abstract as a string)
or a thrown error message. -/
def SdkQuoteOutcome : Type := Except String String

/-- The three response shapes the POST /quote handler can produce. -/
inductive QuoteRouteResponse : Type
  | badRequest (error : String)
  | okQuote (payload : String)
  | serverError (error : String)
deriving DecidableEq, Repr

/-- HTTP status code of each response shape: res.status(400) on the
validation branch, res.json (status 200) on success, res.status(500) in the
catch. -/
def quoteStatusCode : QuoteRouteResponse → Nat
  | QuoteRouteResponse.badRequest _ => 400
  | QuoteRouteResponse.okQuote _ => 200
  | QuoteRouteResponse.serverError _ => 500

/-- The success field of the JSON body of each response shape. -/
def quoteSuccessField : QuoteRouteResponse → Bool
  | QuoteRouteResponse.badRequest _ => false
  | QuoteRouteResponse.okQuote _ => true
  | QuoteRouteResponse.serverError _ => false

/-- Embeds the POST /quote handler (fusion-routes.ts lines 48-75): the six
body fields are tested for truthiness; if any is falsy the handler returns
400 with success false, otherwise it awaits fusionService.getQuote and
returns its payload, mapping a thrown error to 500.  The second component
records whether the underlying SDK quote call was invoked. -/
def quoteRouteHandler (body : QuoteBody) (sdkQuote : SdkQuoteOutcome) :
    QuoteRouteResponse × Bool :=
  if jsTruthyNum body.srcChainId && jsTruthyNum body.dstChainId
      && jsTruthyStr body.srcTokenAddress && jsTruthyStr body.dstTokenAddress
      && jsTruthyStr body.amount && jsTruthyStr body.walletAddress then
    match sdkQuote with
    | Except.ok payload => (QuoteRouteResponse.okQuote payload, true)
    | Except.error e => (QuoteRouteResponse.serverError e, true)
  else
    (QuoteRouteResponse.badRequest
      "Missing required parameters: srcChainId, dstChainId, srcTokenAddress, dstTokenAddress, amount, walletAddress",
     false)

/-! ## CLI scripts: required environment variables -/

/-- requiredEnvVars of the EVM to Solana script (part_000 lines 45-50). -/
def requiredEnvVarsEvmToSol : List String :=
  ["PRIVATE_KEY", "MAKER_ADDRESS", "RECEIVER_ADDRESS", "DEV_PORTAL_API_KEY"]

/-- requiredEnvVars of the Solana to EVM script (sol-to-evm.ts lines
18-23). -/
def requiredEnvVarsSolToEvm : List String :=
  ["SOLANA_PRIVATE_KEY", "SOLANA_MAKER_ADDRESS", "ETH_RECEIVER_ADDRESS", "DEV_PORTAL_API_KEY"]

/-- Result of a CLI script startup: the env-var check loop either calls
process.exit(1) at the first falsy variable, or falls through to the rest
of the script (config construction, then main: quote, order submission
with secret generation, monitoring). -/
inductive StartupResult : Type
  | exited (code : Nat)
  | proceeded
deriving DecidableEq, Repr

/-- The swap actions a CLI script performs after its startup check, in
source order of performCrossChainSwap (part_000 lines 216-218, sol-to-evm.ts
lines 245-247); createAndSubmitOrder generates the secrets and submits the
order. -/
def swapActions : List String :=
  ["getQuote", "generateSecrets", "submitOrder", "monitorAndSubmitSecrets"]

/-- Embeds the startup env-var check loop shared by both CLI scripts
(part_000 lines 51-56, sol-to-evm.ts lines 25-30): iterate over the
required variable names and call process.exit(1) at the first one whose
process.env entry is falsy (unset or empty); only if none is falsy does
the script go on to perform the swap actions.  The second component lists
the swap actions performed. -/
def scriptStartup (env : String → Option String) (vars : List String) :
    StartupResult × List String :=
  match vars.find? (fun k => !jsTruthyStr (env k)) with
  | some _ => (StartupResult.exited 1, [])
  | none => (StartupResult.proceeded, swapActions)

/-! ## Claims C7 and C8 -/

/-- Claim C7: for every POST /quote request body missing at least one of
srcChainId, dstChainId, srcTokenAddress, dstTokenAddress, amount or
walletAddress, the handler responds with HTTP status 400 and a body whose
success field is false, and the underlying SDK quote call is not
invoked. -/
theorem quoteRoute_missing_param (body : QuoteBody) (sdkQuote : SdkQuoteOutcome)
    (h : body.srcChainId = none ∨ body.dstChainId = none
      ∨ body.srcTokenAddress = none ∨ body.dstTokenAddress = none
      ∨ body.amount = none ∨ body.walletAddress = none) :
    quoteStatusCode (quoteRouteHandler body sdkQuote).1 = 400 ∧
    quoteSuccessField (quoteRouteHandler body sdkQuote).1 = false ∧
    (quoteRouteHandler body sdkQuote).2 = false := by
  have hfalse : (jsTruthyNum body.srcChainId && jsTruthyNum body.dstChainId
      && jsTruthyStr body.srcTokenAddress && jsTruthyStr body.dstTokenAddress
      && jsTruthyStr body.amount && jsTruthyStr body.walletAddress) = false := by
    rcases h with h | h | h | h | h | h <;>
      simp [h, jsTruthyNum, jsTruthyStr]
  unfold quoteRouteHandler
  rw [hfalse]
  exact ⟨rfl, rfl, rfl⟩

/-- Witness for C7: a concrete body with walletAddress absent yields a 400
response with success false and no SDK call. -/
theorem quoteRoute_missing_param_witness :
    quoteStatusCode (quoteRouteHandler
      ⟨some 1, some 900, some "0xdac1", some "Es9v", some "5000000", none⟩
      (Except.ok "quote")).1 = 400 ∧
    quoteSuccessField (quoteRouteHandler
      ⟨some 1, some 900, some "0xdac1", some "Es9v", some "5000000", none⟩
      (Except.ok "quote")).1 = false ∧
    (quoteRouteHandler
      ⟨some 1, some 900, some "0xdac1", some "Es9v", some "5000000", none⟩
      (Except.ok "quote")).2 = false :=
  quoteRoute_missing_param
    ⟨some 1, some 900, some "0xdac1", some "Es9v", some "5000000", none⟩
    (Except.ok "quote") (Or.inr (Or.inr (Or.inr (Or.inr (Or.inr rfl)))))

/-- Claim C8: for each of the two CLI swap scripts, if any of its four
required environment variables is unset, the startup check exits with code
1 and none of the swap actions (quote, secret generation, order
submission, monitoring) is performed. -/
theorem scriptStartup_missing_env (env : String → Option String) :
    ((env "PRIVATE_KEY" = none ∨ env "MAKER_ADDRESS" = none
        ∨ env "RECEIVER_ADDRESS" = none ∨ env "DEV_PORTAL_API_KEY" = none) →
      scriptStartup env requiredEnvVarsEvmToSol = (StartupResult.exited 1, [])) ∧
    ((env "SOLANA_PRIVATE_KEY" = none ∨ env "SOLANA_MAKER_ADDRESS" = none
        ∨ env "ETH_RECEIVER_ADDRESS" = none ∨ env "DEV_PORTAL_API_KEY" = none) →
      scriptStartup env requiredEnvVarsSolToEvm = (StartupResult.exited 1, [])) := by
  constructor
  · intro h
    unfold scriptStartup requiredEnvVarsEvmToSol
    have hfind : (["PRIVATE_KEY", "MAKER_ADDRESS", "RECEIVER_ADDRESS",
        "DEV_PORTAL_API_KEY"].find? (fun k => !jsTruthyStr (env k))).isSome := by
      rcases h with h | h | h | h
      · exact List.find?_isSome.mpr ⟨"PRIVATE_KEY", by simp, by simp [h, jsTruthyStr]⟩
      · exact List.find?_isSome.mpr ⟨"MAKER_ADDRESS", by simp, by simp [h, jsTruthyStr]⟩
      · exact List.find?_isSome.mpr ⟨"RECEIVER_ADDRESS", by simp, by simp [h, jsTruthyStr]⟩
      · exact List.find?_isSome.mpr ⟨"DEV_PORTAL_API_KEY", by simp, by simp [h, jsTruthyStr]⟩
    obtain ⟨k, hk⟩ := Option.isSome_iff_exists.mp hfind
    rw [hk]
  · intro h
    unfold scriptStartup requiredEnvVarsSolToEvm
    have hfind : (["SOLANA_PRIVATE_KEY", "SOLANA_MAKER_ADDRESS", "ETH_RECEIVER_ADDRESS",
        "DEV_PORTAL_API_KEY"].find? (fun k => !jsTruthyStr (env k))).isSome := by
      rcases h with h | h | h | h
      · exact List.find?_isSome.mpr ⟨"SOLANA_PRIVATE_KEY", by simp, by simp [h, jsTruthyStr]⟩
      · exact List.find?_isSome.mpr ⟨"SOLANA_MAKER_ADDRESS", by simp, by simp [h, jsTruthyStr]⟩
      · exact List.find?_isSome.mpr ⟨"ETH_RECEIVER_ADDRESS", by simp, by simp [h, jsTruthyStr]⟩
      · exact List.find?_isSome.mpr ⟨"DEV_PORTAL_API_KEY", by simp, by simp [h, jsTruthyStr]⟩
    obtain ⟨k, hk⟩ := Option.isSome_iff_exists.mp hfind
    rw [hk]

/-- Witness for C8: with only DEV_PORTAL_API_KEY unset, both scripts exit
with code 1 having performed no swap action. -/
theorem scriptStartup_missing_env_witness :
    scriptStartup
      (fun k => if k = "DEV_PORTAL_API_KEY" then none else some "v")
      requiredEnvVarsEvmToSol = (StartupResult.exited 1, []) ∧
    scriptStartup
      (fun k => if k = "DEV_PORTAL_API_KEY" then none else some "v")
      requiredEnvVarsSolToEvm = (StartupResult.exited 1, []) :=
  ⟨(scriptStartup_missing_env
      (fun k => if k = "DEV_PORTAL_API_KEY" then none else some "v")).1
      (Or.inr (Or.inr (Or.inr (by simp)))),
   (scriptStartup_missing_env
      (fun k => if k = "DEV_PORTAL_API_KEY" then none else some "v")).2
      (Or.inr (Or.inr (Or.inr (by simp))))⟩

/-! ## Secret-reveal monitoring loops

Each loop is embedded as a step function over an explicit environment
trace: iteration i of the loop observes record i of the trace, which fixes
the outcome of this iteration's getOrderStatus call, its
getReadyToAcceptSecretFills call, the success of each submitSecret call,
and any wall-clock time the iteration consumes beyond the unconditional
5000 ms sleep.  A step either finishes the loop (Sum.inl) or yields the
next loop state (Sum.inr).  Every submitSecret call is recorded in a log. -/

/-- One recorded submitSecret call: the fill index, the JS value
secrets[idx] passed as the secret (undefined out of range), and whether
the call succeeded (resolved) or failed (threw). -/
structure SubmitCall : Type where
  idx : Nat
  value : Option String
  ok : Bool
deriving DecidableEq, Repr

/-- The observations one loop iteration makes of the SDK/relayer:
statusRes is the getOrderStatus outcome (a status string, or a thrown
error), readyRes is the getReadyToAcceptSecretFills outcome (the idx
values of the ready fills, or a thrown error), submitOk tells whether a
submitSecret call for a given idx resolves, and extraTime is the wall
time the iteration takes beyond the mandatory 5000 ms sleep. -/
structure EnvStep : Type where
  statusRes : Except Unit String
  readyRes : Except Unit (List Nat)
  submitOk : Nat → Bool
  extraTime : Nat

/-- An environment trace: the observation record of each loop iteration. -/
def Trace : Type := Nat → EnvStep

/-- Embeds the per-fill submission loop shared by all three monitors
(fusion-service.ts lines 288-299, part_000 lines 163-173, sol-to-evm.ts
lines 212-222): for each ready idx in order, skip it if it is already in
the submitted set; when checkSecret is set (fusion-service.ts only) also
skip it if secrets[idx] is falsy; otherwise call submitSecret with
secrets[idx], and add idx to the submitted set only if the call
succeeded (a failed call is logged but idx stays retryable). -/
def processFills (secrets : List String) (checkSecret : Bool) (submitOk : Nat → Bool) :
    List Nat → List Nat → List SubmitCall → List Nat × List SubmitCall
  | [], submitted, log => (submitted, log)
  | idx :: rest, submitted, log =>
    if idx ∈ submitted then
      processFills secrets checkSecret submitOk rest submitted log
    else if checkSecret = true ∧ jsTruthyStr (jsIndex secrets idx) = false then
      processFills secrets checkSecret submitOk rest submitted log
    else
      processFills secrets checkSecret submitOk rest
        (if submitOk idx = true then idx :: submitted else submitted)
        (log ++ [{ idx := idx, value := jsIndex secrets idx, ok := submitOk idx }])

/-- maxWaitTime of FusionService.monitorAndCompleteSwap: 10 minutes in
milliseconds (fusion-service.ts line 263). -/
def fsMaxWaitTime : Nat := 600000

/-- The 5000 ms poll sleep shared by all three loops. -/
def pollInterval : Nat := 5000

/-- Loop state of FusionService.monitorAndCompleteSwap: wall time elapsed
since startTime, the submittedSecrets set, and the submitSecret call
log. -/
structure FsMonState : Type where
  elapsed : Nat
  submitted : List Nat
  log : List SubmitCall
deriving DecidableEq, Repr

/-- Final outcomes of FusionService.monitorAndCompleteSwap: the completed
object returned on status executed, or the failed object produced by the
outer catch (from the timeout throw or any other error). -/
inductive FsMonFinal : Type
  | completed
  | failed (error : String)
deriving DecidableEq, Repr

/-- The state reached after one non-final iteration of
monitorAndCompleteSwap: the sleep plus the iteration's own time advance
the clock, and the fill processing yields the new submitted set and log. -/
def fsAdvance (e : EnvStep) (s : FsMonState) (p : List Nat × List SubmitCall) : FsMonState :=
  { elapsed := s.elapsed + pollInterval + e.extraTime, submitted := p.1, log := p.2 }

/-- The rest of a monitorAndCompleteSwap iteration after the executed
check: a thrown getReadyToAcceptSecretFills lands in the catch (sleep,
continue unchanged), otherwise the ready fills are processed and the
iteration sleeps. -/
def fsReadyStep (secrets : List String) (e : EnvStep) (s : FsMonState) : FsMonState :=
  match e.readyRes with
  | Except.error _ => fsAdvance e s (s.submitted, s.log)
  | Except.ok fills =>
    fsAdvance e s (processFills secrets true e.submitOk fills s.submitted s.log)

/-- Embeds one iteration of the while loop of
FusionService.monitorAndCompleteSwap (fusion-service.ts lines 269-308):
the loop guard compares elapsed time against maxWaitTime (on guard failure
the subsequent throw is caught and becomes the failed result); inside the
try, a thrown getOrderStatus lands in the catch (sleep, continue); status
executed returns the completed result; otherwise the iteration processes
the ready fills. -/
def fsMonStep (secrets : List String) (e : EnvStep) (s : FsMonState) :
    Sum FsMonFinal FsMonState :=
  if s.elapsed < fsMaxWaitTime then
    match e.statusRes with
    | Except.error _ => Sum.inr (fsAdvance e s (s.submitted, s.log))
    | Except.ok status =>
      if status = "executed" then
        Sum.inl FsMonFinal.completed
      else
        Sum.inr (fsReadyStep secrets e s)
  else
    Sum.inl (FsMonFinal.failed "Monitoring timed out after 10 minutes")

/-- Loop state of part_000 monitorAndSubmitSecrets: the alreadyShared set
and the submitSecret call log (the loop keeps no clock and no attempt
counter). -/
structure PtMonState : Type where
  shared : List Nat
  log : List SubmitCall
deriving DecidableEq, Repr

/-- The second try block of a part_000 monitorAndSubmitSecrets iteration:
a thrown getReadyToAcceptSecretFills just sleeps and retries unchanged,
otherwise the ready fills are processed and the iteration sleeps. -/
def ptReadyStep (secrets : List String) (e : EnvStep) (s : PtMonState) : PtMonState :=
  match e.readyRes with
  | Except.error _ => s
  | Except.ok fills =>
    let p := processFills secrets false e.submitOk fills s.shared s.log
    { shared := p.1, log := p.2 }

/-- Embeds one iteration of the while true loop of part_000
monitorAndSubmitSecrets (part_000 lines 147-182): the first try returns
on status executed and merely logs a thrown getOrderStatus; the second
try processes the ready fills.  The loop has no other exit. -/
def ptMonStep (secrets : List String) (e : EnvStep) (s : PtMonState) :
    Sum Unit PtMonState :=
  match e.statusRes with
  | Except.ok status =>
    if status = "executed" then Sum.inl () else Sum.inr (ptReadyStep secrets e s)
  | Except.error _ => Sum.inr (ptReadyStep secrets e s)

/-- maxAttempts of sol-to-evm.ts monitorAndSubmitSecrets: 120 polls of 5
seconds, i.e. 10 minutes (sol-to-evm.ts line 185). -/
def seMaxAttempts : Nat := 120

/-- Loop state of sol-to-evm.ts monitorAndSubmitSecrets: the attempt
counter, the alreadyShared set and the submitSecret call log. -/
structure SeMonState : Type where
  attempts : Nat
  shared : List Nat
  log : List SubmitCall
deriving DecidableEq, Repr

/-- Final outcomes of sol-to-evm.ts monitorAndSubmitSecrets: return on
status executed, return on status expired or cancelled, or falling out of
the loop once attempts reaches maxAttempts. -/
inductive SeMonFinal : Type
  | completed
  | terminal (status : String)
  | timedOut
deriving DecidableEq, Repr

/-- The second try block of a sol-to-evm.ts monitorAndSubmitSecrets
iteration: process the ready fills then increment attempts (the catch of a
thrown getReadyToAcceptSecretFills also increments attempts after its
sleep). -/
def seReadyStep (secrets : List String) (e : EnvStep) (s : SeMonState) : SeMonState :=
  match e.readyRes with
  | Except.error _ => { s with attempts := s.attempts + 1 }
  | Except.ok fills =>
    let p := processFills secrets false e.submitOk fills s.shared s.log
    { attempts := s.attempts + 1, shared := p.1, log := p.2 }

/-- Embeds one iteration of the while loop of sol-to-evm.ts
monitorAndSubmitSecrets (sol-to-evm.ts lines 187-233): the guard is
attempts < maxAttempts; the first try returns on executed and on
expired or cancelled, logging a thrown getOrderStatus; the second try
processes the ready fills and increments attempts, so every non-returning
iteration counts. -/
def seMonStep (secrets : List String) (e : EnvStep) (s : SeMonState) :
    Sum SeMonFinal SeMonState :=
  if s.attempts < seMaxAttempts then
    match e.statusRes with
    | Except.ok status =>
      if status = "executed" then Sum.inl SeMonFinal.completed
      else if status = "expired" ∨ status = "cancelled" then
        Sum.inl (SeMonFinal.terminal status)
      else Sum.inr (seReadyStep secrets e s)
    | Except.error _ => Sum.inr (seReadyStep secrets e s)
  else
    Sum.inl SeMonFinal.timedOut

/-- Step-indexed loop runner: run at most fuel iterations of a loop from
iteration index i and state s.  Sum.inl s means the loop is still running
after fuel iterations with state s; Sum.inr (f, s) means the loop
finished with result f, its state at exit being s. -/
def runFor {F S : Type} (step : EnvStep → S → Sum F S) :
    Nat → Trace → Nat → S → Sum S (F × S)
  | 0, _, _, s => Sum.inl s
  | fuel + 1, tr, i, s =>
    match step (tr i) s with
    | Sum.inl f => Sum.inr (f, s)
    | Sum.inr s2 => runFor step fuel tr (i + 1) s2

/-- The loop state carried by a runner outcome. -/
def finalStateOf {F S : Type} : Sum S (F × S) → S
  | Sum.inl s => s
  | Sum.inr p => p.2

/-- Whether the runner outcome is a finished loop. -/
def isFinished {F S : Type} : Sum S (F × S) → Bool
  | Sum.inl _ => false
  | Sum.inr _ => true

/-- A full run of FusionService.monitorAndCompleteSwap's loop from its
initial state (clock zero, empty submittedSecrets set, empty log). -/
def fsMonRun (secrets : List String) (tr : Trace) (fuel : Nat) :
    Sum FsMonState (FsMonFinal × FsMonState) :=
  runFor (fsMonStep secrets) fuel tr 0 { elapsed := 0, submitted := [], log := [] }

/-- A full run of part_000 monitorAndSubmitSecrets from its initial state
(empty alreadyShared set, empty log). -/
def ptMonRun (secrets : List String) (tr : Trace) (fuel : Nat) :
    Sum PtMonState (Unit × PtMonState) :=
  runFor (ptMonStep secrets) fuel tr 0 { shared := [], log := [] }

/-- A full run of sol-to-evm.ts monitorAndSubmitSecrets from its initial
state (attempts zero, empty alreadyShared set, empty log). -/
def seMonRun (secrets : List String) (tr : Trace) (fuel : Nat) :
    Sum SeMonState (SeMonFinal × SeMonState) :=
  runFor (seMonStep secrets) fuel tr 0 { attempts := 0, shared := [], log := [] }

/-! ## Log invariants of the monitoring loops -/

/-- No submitSecret call for an index chronologically follows a successful
submitSecret call for the same index. -/
def noCallAfterSuccess : List SubmitCall → Prop
  | [] => True
  | c :: rest => (c.ok = true → ∀ c2 ∈ rest, c2.idx ≠ c.idx) ∧ noCallAfterSuccess rest

/-- Invariant tying a loop's submitted set to its call log: every logged
call passed exactly the JS value secrets[idx] as the secret, no call
follows a successful call for the same index, and every successful call's
index is in the submitted set. -/
structure GoodLog (secrets : List String) (submitted : List Nat)
    (log : List SubmitCall) : Prop where
  values : ∀ c ∈ log, c.value = jsIndex secrets c.idx
  once : noCallAfterSuccess log
  succMem : ∀ c ∈ log, c.ok = true → c.idx ∈ submitted

/-- Every call logged by the fusion-service monitor passed a truthy
secrets[idx] (in particular a defined one). -/
def fsCallsTruthy (secrets : List String) (log : List SubmitCall) : Prop :=
  ∀ c ∈ log, jsTruthyStr (jsIndex secrets c.idx) = true

theorem noCallAfterSuccess_append (log : List SubmitCall) (c0 : SubmitCall)
    (h1 : noCallAfterSuccess log) (h2 : ∀ c ∈ log, c.ok = true → c0.idx ≠ c.idx) :
    noCallAfterSuccess (log ++ [c0]) := by
  induction log with
  | nil =>
    refine ⟨?_, trivial⟩
    intro _ c2 hc2
    simp at hc2
  | cons c rest ih =>
    refine ⟨?_, ih h1.2 (fun x hx hok => h2 x (List.mem_cons_of_mem _ hx) hok)⟩
    intro hok c2 hc2
    rcases List.mem_append.mp hc2 with hmem | hmem
    · exact h1.1 hok c2 hmem
    · have he : c2 = c0 := by simpa using hmem
      subst he
      exact h2 c (List.mem_cons_self _ _) hok

theorem GoodLog.appendCall (secrets : List String) (submitted : List Nat)
    (log : List SubmitCall) (idx : Nat) (ok : Bool)
    (h : GoodLog secrets submitted log) (hidx : idx ∉ submitted) :
    GoodLog secrets (if ok = true then idx :: submitted else submitted)
      (log ++ [{ idx := idx, value := jsIndex secrets idx, ok := ok }]) := by
  constructor
  · intro c hc
    rcases List.mem_append.mp hc with hmem | hmem
    · exact h.values c hmem
    · have he : c = { idx := idx, value := jsIndex secrets idx, ok := ok } := by
        simpa using hmem
      subst he
      rfl
  · apply noCallAfterSuccess_append log _ h.once
    intro c hc hok heq
    have heq2 : idx = c.idx := heq
    apply hidx
    rw [heq2]
    exact h.succMem c hc hok
  · intro c hc hok
    rcases List.mem_append.mp hc with hmem | hmem
    · have hold := h.succMem c hmem hok
      cases ok with
      | true => exact List.mem_cons_of_mem _ hold
      | false => simpa using hold
    · have he : c = { idx := idx, value := jsIndex secrets idx, ok := ok } := by
        simpa using hmem
      subst he
      cases ok with
      | true => simp
      | false => simp at hok

theorem processFills_good (secrets : List String) (checkSecret : Bool)
    (submitOk : Nat → Bool) (fills : List Nat) :
    ∀ submitted log, GoodLog secrets submitted log →
      GoodLog secrets (processFills secrets checkSecret submitOk fills submitted log).1
        (processFills secrets checkSecret submitOk fills submitted log).2 := by
  induction fills with
  | nil => intro submitted log h; exact h
  | cons idx rest ih =>
    intro submitted log h
    by_cases hmem : idx ∈ submitted
    · simpa [processFills, hmem] using ih submitted log h
    · by_cases hcheck : checkSecret = true ∧ jsTruthyStr (jsIndex secrets idx) = false
      · simpa [processFills, hmem, hcheck] using ih submitted log h
      · have h2 := GoodLog.appendCall secrets submitted log idx (submitOk idx) h hmem
        simpa [processFills, hmem, hcheck] using ih _ _ h2

theorem processFills_truthy (secrets : List String) (submitOk : Nat → Bool)
    (fills : List Nat) :
    ∀ submitted log, fsCallsTruthy secrets log →
      fsCallsTruthy secrets (processFills secrets true submitOk fills submitted log).2 := by
  induction fills with
  | nil => intro submitted log h; exact h
  | cons idx rest ih =>
    intro submitted log h
    by_cases hmem : idx ∈ submitted
    · simpa [processFills, hmem] using ih submitted log h
    · by_cases htr : jsTruthyStr (jsIndex secrets idx) = false
      · have hcheck : (true = true ∧ jsTruthyStr (jsIndex secrets idx) = false) := ⟨rfl, htr⟩
        simpa [processFills, hmem, hcheck] using ih submitted log h
      · have htr2 : jsTruthyStr (jsIndex secrets idx) = true := by
          cases hval : jsTruthyStr (jsIndex secrets idx)
          · exact absurd hval htr
          · rfl
        have hlog2 : fsCallsTruthy secrets
            (log ++ [{ idx := idx, value := jsIndex secrets idx, ok := submitOk idx }]) := by
          intro c hc
          rcases List.mem_append.mp hc with hm | hm
          · exact h c hm
          · have he : c = { idx := idx, value := jsIndex secrets idx, ok := submitOk idx } := by
              simpa using hm
            subst he
            exact htr2
        simpa [processFills, hmem, htr2] using ih _ _ hlog2

theorem fsReadyStep_preserves (secrets : List String) (e : EnvStep) (s : FsMonState)
    (hg : GoodLog secrets s.submitted s.log ∧ fsCallsTruthy secrets s.log) :
    GoodLog secrets (fsReadyStep secrets e s).submitted (fsReadyStep secrets e s).log ∧
      fsCallsTruthy secrets (fsReadyStep secrets e s).log := by
  unfold fsReadyStep
  cases hrd : e.readyRes with
  | error u => exact hg
  | ok fills =>
    exact ⟨processFills_good secrets true e.submitOk fills s.submitted s.log hg.1,
           processFills_truthy secrets e.submitOk fills s.submitted s.log hg.2⟩

theorem fsMonStep_preserves (secrets : List String) (e : EnvStep) (s s2 : FsMonState)
    (h : fsMonStep secrets e s = Sum.inr s2)
    (hg : GoodLog secrets s.submitted s.log ∧ fsCallsTruthy secrets s.log) :
    GoodLog secrets s2.submitted s2.log ∧ fsCallsTruthy secrets s2.log := by
  unfold fsMonStep at h
  split at h
  case isTrue hlt =>
    split at h
    · cases h
      exact hg
    · split at h
      · cases h
      · cases h
        exact fsReadyStep_preserves secrets e s hg
  case isFalse => cases h

theorem ptReadyStep_preserves (secrets : List String) (e : EnvStep) (s : PtMonState)
    (hg : GoodLog secrets s.shared s.log) :
    GoodLog secrets (ptReadyStep secrets e s).shared (ptReadyStep secrets e s).log := by
  unfold ptReadyStep
  cases hrd : e.readyRes with
  | error u => exact hg
  | ok fills => exact processFills_good secrets false e.submitOk fills s.shared s.log hg

theorem ptMonStep_preserves (secrets : List String) (e : EnvStep) (s s2 : PtMonState)
    (h : ptMonStep secrets e s = Sum.inr s2)
    (hg : GoodLog secrets s.shared s.log) :
    GoodLog secrets s2.shared s2.log := by
  unfold ptMonStep at h
  split at h
  · split at h
    · cases h
    · cases h
      exact ptReadyStep_preserves secrets e s hg
  · cases h
    exact ptReadyStep_preserves secrets e s hg

theorem seReadyStep_preserves (secrets : List String) (e : EnvStep) (s : SeMonState)
    (hg : GoodLog secrets s.shared s.log) :
    GoodLog secrets (seReadyStep secrets e s).shared (seReadyStep secrets e s).log := by
  unfold seReadyStep
  cases hrd : e.readyRes with
  | error u => exact hg
  | ok fills => exact processFills_good secrets false e.submitOk fills s.shared s.log hg

theorem seMonStep_preserves (secrets : List String) (e : EnvStep) (s s2 : SeMonState)
    (h : seMonStep secrets e s = Sum.inr s2)
    (hg : GoodLog secrets s.shared s.log) :
    GoodLog secrets s2.shared s2.log := by
  unfold seMonStep at h
  split at h
  case isTrue hlt =>
    split at h
    · split at h
      · cases h
      · split at h
        · cases h
        · cases h
          exact seReadyStep_preserves secrets e s hg
    · cases h
      exact seReadyStep_preserves secrets e s hg
  case isFalse => cases h

theorem runFor_preserves {F S : Type} (step : EnvStep → S → Sum F S) (P : S → Prop)
    (hstep : ∀ e s s2, step e s = Sum.inr s2 → P s → P s2) :
    ∀ (fuel : Nat) (tr : Trace) (i : Nat) (s : S), P s →
      P (finalStateOf (runFor step fuel tr i s)) := by
  intro fuel
  induction fuel with
  | zero => intro tr i s h; exact h
  | succ n ih =>
    intro tr i s h
    unfold runFor
    cases hstep2 : step (tr i) s with
    | inl f =>
      simp only [hstep2]
      exact h
    | inr s2 =>
      simp only [hstep2]
      exact ih tr (i + 1) s2 (hstep _ _ _ hstep2 h)

theorem GoodLog_nil (secrets : List String) (submitted : List Nat) :
    GoodLog secrets submitted [] :=
  ⟨fun c hc => absurd hc (List.not_mem_nil c), trivial,
   fun c hc => absurd hc (List.not_mem_nil c)⟩

theorem fsMonRun_good (secrets : List String) (tr : Trace) (fuel : Nat) :
    GoodLog secrets (finalStateOf (fsMonRun secrets tr fuel)).submitted
      (finalStateOf (fsMonRun secrets tr fuel)).log ∧
    fsCallsTruthy secrets (finalStateOf (fsMonRun secrets tr fuel)).log :=
  runFor_preserves (fsMonStep secrets)
    (fun s => GoodLog secrets s.submitted s.log ∧ fsCallsTruthy secrets s.log)
    (fun e s s2 h hg => fsMonStep_preserves secrets e s s2 h hg)
    fuel tr 0 _
    ⟨GoodLog_nil secrets [], fun c hc => absurd hc (List.not_mem_nil c)⟩

theorem ptMonRun_good (secrets : List String) (tr : Trace) (fuel : Nat) :
    GoodLog secrets (finalStateOf (ptMonRun secrets tr fuel)).shared
      (finalStateOf (ptMonRun secrets tr fuel)).log :=
  runFor_preserves (ptMonStep secrets)
    (fun s => GoodLog secrets s.shared s.log)
    (fun e s s2 h hg => ptMonStep_preserves secrets e s s2 h hg)
    fuel tr 0 _ (GoodLog_nil secrets [])

theorem seMonRun_good (secrets : List String) (tr : Trace) (fuel : Nat) :
    GoodLog secrets (finalStateOf (seMonRun secrets tr fuel)).shared
      (finalStateOf (seMonRun secrets tr fuel)).log :=
  runFor_preserves (seMonStep secrets)
    (fun s => GoodLog secrets s.shared s.log)
    (fun e s s2 h hg => seMonStep_preserves secrets e s s2 h hg)
    fuel tr 0 _ (GoodLog_nil secrets [])

/-! ## Claims C1 and C10 -/

/-- Claim C1: in every monitoring run of the secret-reveal loop
(FusionService.monitorAndCompleteSwap, part_000 monitorAndSubmitSecrets,
and sol-to-evm.ts monitorAndSubmitSecrets), over any environment trace and
any number of iterations, every submitSecret call logged for a ready fill
index passed exactly the element at that index of the generated secrets
list (the JS value secrets[idx]), and once a submission for an index
succeeded — the index entered the submitted set — no further submitSecret
call was made for that index in the same run. -/
theorem monitor_submits_each_secret_once (fuel : Nat) (tr : Trace) (secrets : List String) :
    ((∀ c ∈ (finalStateOf (fsMonRun secrets tr fuel)).log,
        c.value = jsIndex secrets c.idx) ∧
      noCallAfterSuccess (finalStateOf (fsMonRun secrets tr fuel)).log) ∧
    ((∀ c ∈ (finalStateOf (ptMonRun secrets tr fuel)).log,
        c.value = jsIndex secrets c.idx) ∧
      noCallAfterSuccess (finalStateOf (ptMonRun secrets tr fuel)).log) ∧
    ((∀ c ∈ (finalStateOf (seMonRun secrets tr fuel)).log,
        c.value = jsIndex secrets c.idx) ∧
      noCallAfterSuccess (finalStateOf (seMonRun secrets tr fuel)).log) :=
  ⟨⟨(fsMonRun_good secrets tr fuel).1.values, (fsMonRun_good secrets tr fuel).1.once⟩,
   ⟨(ptMonRun_good secrets tr fuel).values, (ptMonRun_good secrets tr fuel).once⟩,
   ⟨(seMonRun_good secrets tr fuel).values, (seMonRun_good secrets tr fuel).once⟩⟩

/-- A concrete trace on which the order stays pending and fill index 0 is
always reported ready, with submitSecret always succeeding. -/
def pendingReadyTrace : Trace := fun _ =>
  { statusRes := Except.ok "pending", readyRes := Except.ok [0],
    submitOk := fun _ => true, extraTime := 0 }

/-- Witness for C1: on a two-iteration run over a trace that reports fill
index 0 ready in both iterations, the fusion-service monitor logs the
submission of secret 0 with exactly secrets[0], and its log admits no call
after a success. -/
theorem monitor_submits_each_secret_once_witness :
    (({ idx := 0, value := some "0xaa", ok := true } : SubmitCall)
        ∈ (finalStateOf (fsMonRun ["0xaa"] pendingReadyTrace 2)).log ∧
      ({ idx := 0, value := some "0xaa", ok := true } : SubmitCall).value
        = jsIndex ["0xaa"] 0) ∧
    noCallAfterSuccess (finalStateOf (fsMonRun ["0xaa"] pendingReadyTrace 2)).log :=
  ⟨⟨by decide,
    (monitor_submits_each_secret_once 2 pendingReadyTrace ["0xaa"]).1.1
      { idx := 0, value := some "0xaa", ok := true } (by decide)⟩,
   (monitor_submits_each_secret_once 2 pendingReadyTrace ["0xaa"]).1.2⟩

/-- Claim C10: in FusionService.monitorAndCompleteSwap, every logged
submitSecret call is for a fill index that indexes a generated secret
(idx < secrets.length, secrets[idx] defined), and the value passed is
never undefined. -/
theorem fsMonitor_no_undefined_secret (fuel : Nat) (tr : Trace) (secrets : List String) :
    ∀ c ∈ (finalStateOf (fsMonRun secrets tr fuel)).log,
      c.idx < secrets.length ∧ (jsIndex secrets c.idx).isSome = true ∧
        c.value.isSome = true := by
  intro c hc
  have hg := fsMonRun_good secrets tr fuel
  have htr := hg.2 c hc
  have hval := hg.1.values c hc
  have hsome : (jsIndex secrets c.idx).isSome = true := by
    cases hopt : jsIndex secrets c.idx with
    | none => rw [hopt] at htr; simp [jsTruthyStr] at htr
    | some v => rfl
  refine ⟨?_, hsome, ?_⟩
  · by_contra hlt
    push_neg at hlt
    have hnone : jsIndex secrets c.idx = none := by
      unfold jsIndex
      exact List.getElem?_eq_none hlt
    rw [hnone] at hsome
    simp at hsome
  · rw [hval]
    exact hsome

/-- Witness for C10: the call logged on the concrete two-iteration run is
for index 0 of the one-element secrets list, with a defined value. -/
theorem fsMonitor_no_undefined_secret_witness :
    (0 : Nat) < (["0xaa"] : List String).length ∧
    (jsIndex ["0xaa"] 0).isSome = true ∧
    (some "0xaa" : Option String).isSome = true :=
  fsMonitor_no_undefined_secret 2 pendingReadyTrace ["0xaa"]
    { idx := 0, value := some "0xaa", ok := true } (by decide)

/-! ## Termination behaviour of the three loops (claim C2) -/

theorem fsReadyStep_elapsed (secrets : List String) (e : EnvStep) (s : FsMonState) :
    (fsReadyStep secrets e s).elapsed = s.elapsed + pollInterval + e.extraTime := by
  unfold fsReadyStep
  cases hrd : e.readyRes <;> rfl

theorem fsMonStep_inr_elapsed (secrets : List String) (e : EnvStep) (s s2 : FsMonState)
    (h : fsMonStep secrets e s = Sum.inr s2) :
    s.elapsed < fsMaxWaitTime ∧ s.elapsed + pollInterval ≤ s2.elapsed := by
  unfold fsMonStep at h
  split at h
  case isTrue hlt =>
    refine ⟨hlt, ?_⟩
    split at h
    · cases h
      show s.elapsed + pollInterval ≤ s.elapsed + pollInterval + e.extraTime
      omega
    · split at h
      · cases h
      · cases h
        rw [fsReadyStep_elapsed]
        omega
  case isFalse => cases h

theorem fsRun_timeout_bound (secrets : List String) (tr : Trace) :
    ∀ (fuel i : Nat) (s : FsMonState),
      fsMaxWaitTime ≤ s.elapsed + pollInterval * fuel →
      isFinished (runFor (fsMonStep secrets) (fuel + 1) tr i s) = true := by
  intro fuel
  induction fuel with
  | zero =>
    intro i s hb
    have hnlt : ¬ s.elapsed < fsMaxWaitTime := by
      simp only [fsMaxWaitTime, pollInterval] at hb ⊢
      omega
    unfold runFor fsMonStep
    simp [hnlt, isFinished]
  | succ n ih =>
    intro i s hb
    unfold runFor
    cases hstep : fsMonStep secrets (tr i) s with
    | inl f => simp [isFinished]
    | inr s2 =>
      simp only
      apply ih (i + 1) s2
      have h2 := fsMonStep_inr_elapsed secrets (tr i) s s2 hstep
      simp only [fsMaxWaitTime, pollInterval] at hb h2 ⊢
      omega

/-- The fusion-service monitor always finishes within 121 polls: each
non-final iteration advances the clock by at least the 5000 ms sleep, so
after 120 iterations at least maxWaitTime (10 minutes) has elapsed and the
guard fails. -/
theorem fsMonRun_finishes (secrets : List String) (tr : Trace) :
    isFinished (fsMonRun secrets tr 121) = true := by
  have h := fsRun_timeout_bound secrets tr 120 0
    { elapsed := 0, submitted := [], log := [] }
    (by simp only [fsMaxWaitTime, pollInterval]; omega)
  exact h

theorem seReadyStep_attempts (secrets : List String) (e : EnvStep) (s : SeMonState) :
    (seReadyStep secrets e s).attempts = s.attempts + 1 := by
  unfold seReadyStep
  cases hrd : e.readyRes <;> rfl

theorem seMonStep_inr_attempts (secrets : List String) (e : EnvStep) (s s2 : SeMonState)
    (h : seMonStep secrets e s = Sum.inr s2) :
    s.attempts < seMaxAttempts ∧ s2.attempts = s.attempts + 1 := by
  unfold seMonStep at h
  split at h
  case isTrue hlt =>
    refine ⟨hlt, ?_⟩
    split at h
    · split at h
      · cases h
      · split at h
        · cases h
        · cases h
          exact seReadyStep_attempts secrets e s
    · cases h
      exact seReadyStep_attempts secrets e s
  case isFalse => cases h

theorem seRun_timeout_bound (secrets : List String) (tr : Trace) :
    ∀ (fuel i : Nat) (s : SeMonState),
      seMaxAttempts ≤ s.attempts + fuel →
      isFinished (runFor (seMonStep secrets) (fuel + 1) tr i s) = true := by
  intro fuel
  induction fuel with
  | zero =>
    intro i s hb
    have hnlt : ¬ s.attempts < seMaxAttempts := by
      simp only [seMaxAttempts] at hb ⊢
      omega
    unfold runFor seMonStep
    simp [hnlt, isFinished]
  | succ n ih =>
    intro i s hb
    unfold runFor
    cases hstep : seMonStep secrets (tr i) s with
    | inl f => simp [isFinished]
    | inr s2 =>
      simp only
      apply ih (i + 1) s2
      have h2 := seMonStep_inr_attempts secrets (tr i) s s2 hstep
      simp only [seMaxAttempts] at hb h2 ⊢
      omega

/-- The sol-to-evm monitor always finishes within 121 polls: every
non-returning iteration increments attempts, and the guard fails once
attempts reaches 120. -/
theorem seMonRun_finishes (secrets : List String) (tr : Trace) :
    isFinished (seMonRun secrets tr 121) = true := by
  have h := seRun_timeout_bound secrets tr 120 0
    { attempts := 0, shared := [], log := [] }
    (by simp only [seMaxAttempts]; omega)
  exact h

theorem ptMonStep_continues (secrets : List String) (e : EnvStep) (s : PtMonState)
    (hne : e.statusRes ≠ Except.ok "executed") :
    ptMonStep secrets e s = Sum.inr (ptReadyStep secrets e s) := by
  unfold ptMonStep
  cases hst : e.statusRes with
  | error u => rfl
  | ok status =>
    have hsne : ¬ status = "executed" := by
      intro hc
      exact hne (by rw [hst, hc])
    simp [hsne]

/-- The part_000 monitor never finishes on a trace on which
getOrderStatus never yields the status executed: its while true loop has
no timeout and no other exit condition. -/
theorem ptRun_never_finishes (secrets : List String) (tr : Trace)
    (hne : ∀ i, (tr i).statusRes ≠ Except.ok "executed") :
    ∀ (fuel i : Nat) (s : PtMonState),
      isFinished (runFor (ptMonStep secrets) fuel tr i s) = false := by
  intro fuel
  induction fuel with
  | zero => intro i s; rfl
  | succ n ih =>
    intro i s
    unfold runFor
    rw [ptMonStep_continues secrets (tr i) s (hne i)]
    exact ih (i + 1) (ptReadyStep secrets (tr i) s)

/-- A concrete trace on which the order is permanently in the terminal
state cancelled, no fills are ever ready, and iterations take exactly the
5000 ms sleep. -/
def cancelledTrace : Trace := fun _ =>
  { statusRes := Except.ok "cancelled", readyRes := Except.ok [],
    submitOk := fun _ => false, extraTime := 0 }

/-- Counterexample to claim C2 as stated: on an order that is permanently
in the terminal state cancelled, part_000 monitorAndSubmitSecrets is still
running after 121 polls — more than the 10 minutes that bound the other
two loops at the fixed 5-second interval.  It neither returned when the
order reached a terminal state (it only tests for executed) nor stopped
after a bounded timeout (its while true loop has none), so the monitoring
loop of part_000 can loop forever on an order that never becomes
executed. -/
theorem ptMonitor_no_timeout_counterexample :
    isFinished (ptMonRun [] cancelledTrace 121) = false :=
  ptRun_never_finishes [] cancelledTrace
    (by intro i; simp [cancelledTrace]) 121 0 { shared := [], log := [] }

/-- Claim C2 (amended): the monitoring loops of
FusionService.monitorAndCompleteSwap and sol-to-evm.ts
monitorAndSubmitSecrets poll at a fixed interval and always terminate
within a bounded number of polls (121: a 10-minute clock bound and a
120-attempt bound respectively), but the loop of part_000
monitorAndSubmitSecrets returns only when the order status becomes
executed and otherwise polls forever: it has no timeout and does not exit
on any other terminal state. -/
theorem monitor_loop_termination (secrets : List String) (tr : Trace) :
    isFinished (fsMonRun secrets tr 121) = true ∧
    isFinished (seMonRun secrets tr 121) = true ∧
    ((∀ i, (tr i).statusRes ≠ Except.ok "executed") →
      ∀ fuel, isFinished (ptMonRun secrets tr fuel) = false) :=
  ⟨fsMonRun_finishes secrets tr, seMonRun_finishes secrets tr,
   fun hne fuel =>
     ptRun_never_finishes secrets tr hne fuel 0 { shared := [], log := [] }⟩

/-- Witness for C2 (amended): on the concrete permanently-cancelled trace
the fusion-service and sol-to-evm loops have finished within 121 polls
while the part_000 loop is still running after 121 polls. -/
theorem monitor_loop_termination_witness :
    isFinished (fsMonRun ["0xaa"] cancelledTrace 121) = true ∧
    isFinished (seMonRun ["0xaa"] cancelledTrace 121) = true ∧
    isFinished (ptMonRun ["0xaa"] cancelledTrace 121) = false :=
  ⟨(monitor_loop_termination ["0xaa"] cancelledTrace).1,
   (monitor_loop_termination ["0xaa"] cancelledTrace).2.1,
   (monitor_loop_termination ["0xaa"] cancelledTrace).2.2
     (by intro i; simp [cancelledTrace]) 121⟩

/-! ## Order creation and submission (claim C5) -/

/-- The data computed by an order-creation function and handed to the
relayer submission call: the generated secrets, the secretHashes list
passed to submitOrder or announceOrder, and the hash-lock placed in the
order. -/
structure OrderSubmission : Type where
  secrets : List String
  secretHashes : List SecretHashExpr
  hashLock : HashLockExpr
deriving DecidableEq, Repr

/-- Embeds steps 4 and 5 of FusionService.executeSwap (fusion-service.ts
lines 183-213): generate presetData.secretsCount secrets, map
HashLock.hashSecret over them, build the inline hash-lock, and pass
secretHashes to sdkWithSigner.submitOrder. -/
def executeSwapOrderParts (count : Nat) (rng : Rng) : OrderSubmission :=
  let secrets := generateSecrets count rng
  { secrets := secrets,
    secretHashes := secrets.map SecretHashExpr.hashSecret,
    hashLock := executeSwapHashLock secrets }

/-- Embeds createAndSubmitOrder of part_000 (lines 106-136): generate
preset.secretsCount secrets, map HashLock.hashSecret over them, build the
hash-lock via createHashLock, and pass secretHashes to sdk.submitOrder. -/
def ptCreateAndSubmitOrderParts (count : Nat) (rng : Rng) : OrderSubmission :=
  let secrets := generateSecrets count rng
  { secrets := secrets,
    secretHashes := secrets.map (fun s => SecretHashExpr.hashSecret s),
    hashLock := createHashLock secrets }

/-- Embeds createAndSubmitOrder of sol-to-evm.ts (lines 119-143): generate
preset.secretsCount secrets, map HashLock.hashSecret over them, build the
hash-lock via createHashLock, and pass secretHashes to sdk.announceOrder. -/
def seCreateAndSubmitOrderParts (count : Nat) (rng : Rng) : OrderSubmission :=
  let secrets := generateSecrets count rng
  { secrets := secrets,
    secretHashes := secrets.map (fun s => SecretHashExpr.hashSecret s),
    hashLock := createHashLock secrets }

/-- Claim C5: in every swap execution (FusionService.executeSwap, the
part_000 createAndSubmitOrder, and the sol-to-evm.ts
createAndSubmitOrder), the order is submitted together with a secret-hash
list that is the image of the generated secrets under HashLock.hashSecret
in the same order: the two lists have equal length, and entry i of the
hash list is the hash of secret i. -/
theorem order_submitted_with_secret_hashes (count : Nat) (rng : Rng) :
    ((executeSwapOrderParts count rng).secretHashes.length
        = (executeSwapOrderParts count rng).secrets.length ∧
      ∀ i : Nat, (executeSwapOrderParts count rng).secretHashes[i]?
        = ((executeSwapOrderParts count rng).secrets[i]?).map SecretHashExpr.hashSecret) ∧
    ((ptCreateAndSubmitOrderParts count rng).secretHashes.length
        = (ptCreateAndSubmitOrderParts count rng).secrets.length ∧
      ∀ i : Nat, (ptCreateAndSubmitOrderParts count rng).secretHashes[i]?
        = ((ptCreateAndSubmitOrderParts count rng).secrets[i]?).map SecretHashExpr.hashSecret) ∧
    ((seCreateAndSubmitOrderParts count rng).secretHashes.length
        = (seCreateAndSubmitOrderParts count rng).secrets.length ∧
      ∀ i : Nat, (seCreateAndSubmitOrderParts count rng).secretHashes[i]?
        = ((seCreateAndSubmitOrderParts count rng).secrets[i]?).map SecretHashExpr.hashSecret) := by
  refine ⟨⟨?_, ?_⟩, ⟨?_, ?_⟩, ⟨?_, ?_⟩⟩ <;>
    simp [executeSwapOrderParts, ptCreateAndSubmitOrderParts,
      seCreateAndSubmitOrderParts, List.getElem?_map]

/-! ## FusionService.executeSwap error handling (claim C6) -/

/-- The quote fields executeSwap reads from the SDK quote object:
presetData.secretsCount for the recommended preset, and quote.quoteId. -/
structure QuoteData : Type where
  secretsCount : Nat
  quoteId : String
deriving DecidableEq, Repr

/-- The error thrown by sdkWithSigner.submitOrder: its message and the
optional response.data payload the inner catch inspects. -/
structure SubmitError : Type where
  message : String
  responseData : Option String
deriving DecidableEq, Repr

/-- The SDK outcomes one executeSwap call observes: the getQuote outcome,
whether getSDKWithSigner finds its environment variables (it throws
otherwise), the submitOrder outcome (an order hash, or a thrown error),
the same for the getSDKWithSigner call inside monitorAndCompleteSwap, the
randomness for secret generation, and the monitoring trace. -/
structure ExecEnv : Type where
  quoteRes : Except String QuoteData
  signerOk : Bool
  submitRes : Except SubmitError String
  monSignerOk : Bool
  rng : Rng
  monTrace : Trace

/-- The result object of FusionService.monitorAndCompleteSwap as a total
function of its observations: a failed getSDKWithSigner is caught by the
outer catch; otherwise the loop runs, and by fsMonRun_finishes fuel 121
always suffices (each iteration sleeps 5000 ms and the clock bound is
600000 ms), so the still-running arm below is unreachable. -/
def fsMonitorResult (secrets : List String) (tr : Trace) (signerOk : Bool) : FsMonFinal :=
  if signerOk = false then
    FsMonFinal.failed "TEST_PRIVATE_KEY and INCH_API_KEY required for order submission"
  else
    match fsMonRun secrets tr 121 with
    | Sum.inr p => p.1
    | Sum.inl _ => FsMonFinal.failed "Monitoring timed out after 10 minutes"

/-- The two result shapes of FusionService.executeSwap: the success object
(success true, with the monitoring outcome in finalStatus) or the failure
object returned by the outer catch (success false, with the error
message). -/
inductive SwapResultModel : Type
  | ok (orderHash : String) (finalStatus : FsMonFinal)
  | err (error : String)
deriving DecidableEq, Repr

/-- The success field of the object executeSwap returns. -/
def swapSuccessField : SwapResultModel → Bool
  | SwapResultModel.ok _ _ => true
  | SwapResultModel.err _ => false

/-- Embeds FusionService.executeSwap (fusion-service.ts lines 148-258):
a thrown getQuote or getSDKWithSigner lands in the outer catch (success
false with the error message); secrets are generated from the quote's
secretsCount; a submitOrder error is wrapped as an API Error when it has
response.data and rethrown into the outer catch; on submission success the
function returns success true with monitorAndCompleteSwap's result — which
never throws — in finalStatus. -/
def executeSwap (env : ExecEnv) : SwapResultModel :=
  match env.quoteRes with
  | Except.error e => SwapResultModel.err e
  | Except.ok q =>
    if env.signerOk = false then
      SwapResultModel.err "TEST_PRIVATE_KEY and INCH_API_KEY required for order submission"
    else
      let secrets := generateSecrets q.secretsCount env.rng
      match env.submitRes with
      | Except.error se =>
        SwapResultModel.err
          (match se.responseData with
           | some d => "API Error: " ++ d
           | none => se.message)
      | Except.ok orderHash =>
        SwapResultModel.ok orderHash (fsMonitorResult secrets env.monTrace env.monSignerOk)

/-- Claim C6: FusionService.executeSwap never rejects: it returns a result
object for every combination of SDK outcomes, with success false and an
error message on any failure before or during order submission (quote
failure, missing signer keys, submission failure), and when order
submission succeeds but the subsequent monitoring fails or times out it
still returns success true, the failure being recorded only inside the
finalStatus field. -/
theorem executeSwap_error_handling (env : ExecEnv) :
    (∀ e, env.quoteRes = Except.error e →
      executeSwap env = SwapResultModel.err e ∧
      swapSuccessField (executeSwap env) = false) ∧
    (∀ q, env.quoteRes = Except.ok q → env.signerOk = false →
      executeSwap env
        = SwapResultModel.err "TEST_PRIVATE_KEY and INCH_API_KEY required for order submission" ∧
      swapSuccessField (executeSwap env) = false) ∧
    (∀ q se, env.quoteRes = Except.ok q → env.signerOk = true →
      env.submitRes = Except.error se →
      swapSuccessField (executeSwap env) = false) ∧
    (∀ q orderHash, env.quoteRes = Except.ok q → env.signerOk = true →
      env.submitRes = Except.ok orderHash →
      executeSwap env = SwapResultModel.ok orderHash
        (fsMonitorResult (generateSecrets q.secretsCount env.rng)
          env.monTrace env.monSignerOk) ∧
      swapSuccessField (executeSwap env) = true) := by
  refine ⟨?_, ?_, ?_, ?_⟩
  · intro e he
    simp [executeSwap, he, swapSuccessField]
  · intro q hq hs
    simp [executeSwap, hq, hs, swapSuccessField]
  · intro q se hq hs hsub
    simp [executeSwap, hq, hs, hsub, swapSuccessField]
  · intro q orderHash hq hs hsub
    simp [executeSwap, hq, hs, hsub, swapSuccessField]

/-- A concrete environment in which quote, signer and submission all
succeed but monitoring observes a permanently cancelled order. -/
def execEnvWitness : ExecEnv :=
  { quoteRes := Except.ok { secretsCount := 1, quoteId := "q1" },
    signerOk := true,
    submitRes := Except.ok "0xhash",
    monSignerOk := true,
    rng := fun _ => List.replicate 32 0,
    monTrace := cancelledTrace }

/-- Witness for C6: on the concrete environment whose monitoring trace
never reaches executed, executeSwap still returns the success object, the
monitoring timeout being recorded only in finalStatus. -/
theorem executeSwap_error_handling_witness :
    executeSwap execEnvWitness
      = SwapResultModel.ok "0xhash"
          (FsMonFinal.failed "Monitoring timed out after 10 minutes") ∧
    swapSuccessField (executeSwap execEnvWitness) = true := by
  have h := (executeSwap_error_handling execEnvWitness).2.2.2
    { secretsCount := 1, quoteId := "q1" } "0xhash" rfl rfl rfl
  refine ⟨?_, h.2⟩
  rw [h.1]
  rfl
